import Mathlib

/-!
Verification development for the ACCIOJOB component-generation service.

Strings are embedded as `List Char`. The backend route
`routes/aiRoutes.js` (POST /generate) is modelled by pure functions:
the fenced-code-block scan (`codeBlockRegex` with its `exec` loop and
`replace`), the response post-processing that fills the generated
jsx/css/html artifacts and the explanatory text, the construction of the
outbound `contents` message list, and the request guard. The dashboard
page (`handleSendPrompt`) and the session routes
(`routes/sessionRoutes.js`) are modelled alongside.
-/

namespace Accio

/-- The backtick character, written by code point to keep source plain. -/
def btick : Char := Char.ofNat 96

/-- The three-backtick fence marker of `codeBlockRegex`. -/
def fenceMarker : List Char := [btick, btick, btick]

/-- Whitespace as removed by JavaScript `String.prototype.trim`
(common subset: space, tab, newline, carriage return). -/
def wsChar (c : Char) : Bool :=
  c == ' ' || c == '\t' || c == '\n' || c == '\x0d'

/-- JavaScript `s.trim()`: strip leading and trailing whitespace
(right side first, via reverse, then the left side). -/
def trimL (s : List Char) : List Char :=
  ((s.reverse.dropWhile wsChar).reverse).dropWhile wsChar

/-- `startsWithL pat s`: `s` begins with `pat`. -/
def startsWithL : List Char → List Char → Bool
  | [], _ => true
  | _ :: _, [] => false
  | a :: as, b :: bs => a == b && startsWithL as bs

/-- JavaScript `String.prototype.includes`: `pat` occurs in `s`. -/
def isSubstring (pat s : List Char) : Bool :=
  match s with
  | [] => startsWithL pat []
  | _ :: cs => startsWithL pat s || isSubstring pat cs

/-- The language-tag alternation of
`codeBlockRegex = /(three backticks)(jsx|tsx|javascript|js|css|html)\n(lazy body)(three backticks)/g`
(aiRoutes.js line 118), in the regex's alternation order. -/
def fenceTags : List (List Char) :=
  [("jsx".data), ("tsx".data), ("javascript".data), ("js".data), ("css".data), ("html".data)]

/-- Try to match the opening of a fenced block at the head of `s`:
three backticks, then the first alternation tag followed by a newline.
Returns the tag and the text after the header. -/
def tryOpen (s : List Char) : Option (List Char × List Char) :=
  if startsWithL fenceMarker s then
    match fenceTags.find? (fun t => startsWithL (t ++ ['\n']) (s.drop 3)) with
    | some t => some (t, s.drop (3 + t.length + 1))
    | none => none
  else none

/-- Split at the first closing fence: the lazy body `([\s\S]*?)` grows
until the first three-backtick marker. Returns the body and the text
after the marker, or `none` when no marker follows. -/
def splitOnClose : List Char → Option (List Char × List Char)
  | [] => none
  | c :: cs =>
    if startsWithL fenceMarker (c :: cs) then some ([], cs.drop 2)
    else (splitOnClose cs).map (fun p => (c :: p.1, p.2))

/-- Find the leftmost match of `codeBlockRegex`: the unmatched prefix,
the tag, the (raw, untrimmed) body, and the rest of the text after the
closing fence. A fence opening with no later closing marker fails and
scanning resumes one character further, as the regex engine does. -/
def findFence : List Char → Option (List Char × List Char × List Char × List Char)
  | [] => none
  | c :: cs =>
    match tryOpen (c :: cs) with
    | some (t, after) =>
      match splitOnClose after with
      | some (body, rest) => some ([], t, body, rest)
      | none => (findFence cs).map (fun q => (c :: q.1, q.2))
    | none => (findFence cs).map (fun q => (c :: q.1, q.2))

/-- The `while ((match = codeBlockRegex.exec(text)) !== null)` loop
(lines 122-126) together with `text.replace(codeBlockRegex, '')`
(line 137): successive non-overlapping matches `(lang, raw body)` and
the residual text with every matched region removed. Fuel-indexed;
each successful match consumes at least nine characters, so fuel equal
to the text length always suffices. -/
def extractFuel : Nat → List Char → List (List Char × List Char) × List Char
  | 0, s => ([], s)
  | n + 1, s =>
    match findFence s with
    | none => ([], s)
    | some (pre, t, body, rest) =>
      let r := extractFuel n rest
      ((t, body) :: r.1, pre ++ r.2)

/-- All fenced-block matches of the response text, and the residual. -/
def extractBlocks (s : List Char) : List (List Char × List Char) × List Char :=
  extractFuel s.length s

/-- `s.lang.includes('js')` (line 129): tags `jsx`, `js`, `javascript`
qualify; `tsx`, `css`, `html` do not. -/
def isJsLang (t : List Char) : Bool := isSubstring ("js".data) t

/-- `s.lang === 'css'` (line 130). -/
def isCssLang (t : List Char) : Bool := t == ("css".data)

/-- `s.lang === 'html'` (line 131). -/
def isHtmlLang (t : List Char) : Bool := t == ("html".data)

/-- Backend sentinel for "no JSX generated" (aiRoutes.js line 144). -/
def jsxSentinel : List Char := ("// No JSX generated for this prompt.".data)

/-- Backend sentinel for "no CSS generated" (aiRoutes.js line 145). -/
def cssSentinel : List Char := ("/* No CSS generated for this prompt. */".data)

/-- Fixed acknowledgement text (aiRoutes.js line 139). -/
def ackText : List Char := ("Here's the component code you requested:".data)

/-- Fixed no-code-or-text message (aiRoutes.js line 141). -/
def noCodeText : List Char :=
  ("I processed your request, but found no code or specific text to return.".data)

/-- One generated-code triple: the `generatedCode` payload
`{jsx, css, html}` of the route's response, also the shape of
`currentGeneratedCode` and of a chat message's `code_snippet`. -/
structure CodeSnips where
  jsx : List Char
  css : List Char
  html : List Char
deriving DecidableEq

/-- Artifact extraction, aiRoutes.js lines 113-147: scan the response
text for fenced blocks; when at least one block was found, assign each
artifact the first matching block's trimmed body (missing kinds stay
empty) and fall back on fixed texts when the residual trims to empty;
when no block was found, return the sentinel triple (the html slot is
the empty string, line 146) and the untouched response text. -/
def processResponse (text : List Char) : List Char × CodeSnips :=
  let scan := extractBlocks text
  let found := scan.1.map (fun p => (p.1, trimL p.2))
  if found.isEmpty then
    (text, ⟨jsxSentinel, cssSentinel, []⟩)
  else
    let gJsx := ((found.find? (fun p => isJsLang p.1)).map Prod.snd).getD []
    let gCss := ((found.find? (fun p => isCssLang p.1)).map Prod.snd).getD []
    let gHtml := ((found.find? (fun p => isHtmlLang p.1)).map Prod.snd).getD []
    let resid := trimL scan.2
    let aiText :=
      if resid.isEmpty && (!gJsx.isEmpty || !gCss.isEmpty || !gHtml.isEmpty) then ackText
      else if resid.isEmpty then noCodeText
      else resid
    (aiText, ⟨gJsx, gCss, gHtml⟩)

/-! ## Serialization of generated code into the model context
(aiRoutes.js lines 69-93). -/

/-- `currentGeneratedCode && (jsx || css || html)`: JavaScript truthiness
of the triple — at least one kind non-empty. -/
def snipAny (c : CodeSnips) : Bool :=
  !c.jsx.isEmpty || !c.css.isEmpty || !c.html.isEmpty

/-- The `codeText` accumulation of lines 71-73 and 83-85: each non-empty
kind becomes a fenced block, newline + three backticks + tag + newline
+ code + newline + three backticks. -/
def codeTextOf (c : CodeSnips) : List Char :=
  (if c.jsx.isEmpty then []
   else '\n' :: fenceMarker ++ ("jsx".data) ++ '\n' :: c.jsx ++ '\n' :: fenceMarker)
  ++ (if c.css.isEmpty then []
      else '\n' :: fenceMarker ++ ("css".data) ++ '\n' :: c.css ++ '\n' :: fenceMarker)
  ++ (if c.html.isEmpty then []
      else '\n' :: fenceMarker ++ ("html".data) ++ '\n' :: c.html ++ '\n' :: fenceMarker)

/-- Prefix of the synthetic model turn carrying the current code
(aiRoutes.js line 90). -/
def refineHeader : List Char := ("Current component code to refine:".data)

/-- The text of the synthetic assistant message presenting the current
ArtifactSet, `Current component code to refine:` + `codeText`. -/
def serializeCurrentCode (c : CodeSnips) : List Char :=
  refineHeader ++ codeTextOf c

/-! ## Context assembly (aiRoutes.js lines 34-109). -/

/-- One part of an outbound message: plain text or inline image data. -/
inductive Part where
  | text (s : List Char)
  | inlineData (mimeType : List Char) (data : List Char)
deriving DecidableEq

/-- One outbound message: role (`user` / `model` / `system`) and parts. -/
structure Content where
  role : List Char
  parts : List Part
deriving DecidableEq

/-- The lazy group of `/:(.*?);/` starting right after a colon: the
characters before the first semicolon, none of which may be a line
terminator (`.` matches neither `\n` nor `\r`). -/
def grabUpToSemi : List Char → Option (List Char)
  | [] => none
  | c :: cs =>
    if c == ';' then some []
    else if c == '\n' || c == '\x0d' then none
    else (grabUpToSemi cs).map (fun g => c :: g)

/-- `mimeTypePart.match(/:(.*?);/)?.[1]` (lines 63 and 99): the group of
the leftmost match — scan for a colon whose following text reaches a
semicolon. -/
def matchMime : List Char → Option (List Char)
  | [] => none
  | c :: cs =>
    if c == ':' then
      match grabUpToSemi cs with
      | some g => some g
      | none => matchMime cs
    else matchMime cs

/-- `const [mimeTypePart, base64DataPart] = s.split(',')` (lines 62 and
98): the first comma-separated field, and the second one when a comma
exists (note: the second *field*, not the whole remainder). -/
def splitComma2 (s : List Char) : List Char × Option (List Char) :=
  let first := s.takeWhile (fun c => c != ',')
  match s.dropWhile (fun c => c != ',') with
  | [] => (first, none)
  | _ :: r => (first, some (r.takeWhile (fun c => c != ',')))

/-- Decode a data-URI image into an inline part (lines 97-103): both the
matched media type and the base64 payload must be non-empty (JavaScript
truthiness of `mimeType && base64DataPart`), otherwise no part. -/
def decodeImagePart (image : List Char) : Option Part :=
  let sp := splitComma2 image
  match matchMime sp.1, sp.2 with
  | some mime, some b64 =>
    if mime.isEmpty || b64.isEmpty then none else some (.inlineData mime b64)
  | _, _ => none

/-- One incoming chat-history message, as sent by the dashboard:
`{role, content, imageUrl?, code_snippet?}`. -/
structure Msg where
  role : List Char
  content : List Char
  imageUrl : Option (List Char)
  code_snippet : Option CodeSnips
deriving DecidableEq

/-- Parts of a replayed history message (lines 59-76): its text, its
image when it decodes, and — for an `ai` message with a truthy snippet
— the snippet re-serialized as fenced blocks appended as another text
part. -/
def historyParts (m : Msg) : List Part :=
  [Part.text m.content]
  ++ (match m.imageUrl with
      | some u => match decodeImagePart u with
        | some p => [p]
        | none => []
      | none => [])
  ++ (match m.code_snippet with
      | some cs =>
        if m.role == ("ai".data) && snipAny cs then
          if (codeTextOf cs).isEmpty then []
          else [Part.text (("\n\nPrevious Code Generated:".data) ++ codeTextOf cs)]
        else []
      | none => [])

/-- A replayed history message (line 76): role `user` stays `user`,
anything else becomes `model`. -/
def historyContent (m : Msg) : Content :=
  ⟨if m.role == ("user".data) then ("user".data) else ("model".data), historyParts m⟩

/-- The synthetic model turn for the current generated code (lines
81-93): pushed only when the triple is truthy and its `codeText` is
non-empty. -/
def currentCodeContents (cgc : Option CodeSnips) : List Content :=
  match cgc with
  | some c =>
    if snipAny c then
      if (codeTextOf c).isEmpty then []
      else [⟨("model".data), [Part.text (serializeCurrentCode c)]⟩]
    else []
  | none => []

/-- The new user message (lines 96-104): the prompt text plus the image
part when the image payload decodes; a failed decode adds nothing. -/
def userContent (prompt : List Char) (image : Option (List Char)) : Content :=
  ⟨("user".data),
   [Part.text prompt]
   ++ (match image with
       | some im => match decodeImagePart im with
         | some p => [p]
         | none => []
       | none => [])⟩

/-- The full `contents` array (history, then current code, then the new
user prompt). -/
def buildContents (history : List Msg) (cgc : Option CodeSnips)
    (prompt : List Char) (image : Option (List Char)) : List Content :=
  history.map historyContent ++ currentCodeContents cgc ++ [userContent prompt image]

/-- The fixed system instruction text (aiRoutes.js lines 37-51, a
template literal with its source indentation). -/
def systemInstructionText : List Char :=
  ("You are an expert React component generator. \n            When the user asks you to \"build\", \"create\", \"generate\", or describes a UI element, \n            you must provide the component's code.\n            Always include code in distinct markdown code blocks for JSX, CSS, and HTML if applicable.\n            \n            Format your code clearly:\n            - JSX/JavaScript: Use ```jsx ... ``` or ```javascript ... ```\n            - CSS: Use ```css ... ```\n            - HTML: Use ```html ... ```\n            \n            Provide a brief explanation first, then the code blocks.\n            Do not include 'import React from \"react\";' in your JSX output, assume React is globally available.\n            Do not include 'import './App.css';' or similar CSS imports.\n            Do not use 'useNavigate' or other routing-specific hooks in your component code.\n            Generate self-contained components suitable for direct rendering.".data)

/-- The fixed system instruction message (lines 34-53). -/
def systemInstructionMsg : Content :=
  ⟨("system".data), [Part.text systemInstructionText]⟩

/-- An outbound generation request: the `model.generateContent` argument
(lines 106-109). -/
structure GenRequest where
  contents : List Content
  systemInstruction : Content
deriving DecidableEq

/-- Outcome of the POST /generate route up to the external call: either
an early 400 rejection, or a call to the model with the assembled
request. -/
inductive RouteResult where
  | badRequest (msg : List Char)
  | callModel (req : GenRequest)
deriving DecidableEq

/-- Whether the route reached the external model call. -/
def isCallModel : RouteResult → Bool
  | .badRequest _ => false
  | .callModel _ => true

/-- The contents of the assembled request (empty on rejection). -/
def contentsOf : RouteResult → List Content
  | .badRequest _ => []
  | .callModel q => q.contents

/-- JavaScript falsiness of the optional image string. -/
def imageFalsy : Option (List Char) → Bool
  | none => true
  | some s => s.isEmpty

/-- The route up to the model call (lines 18-109): reject with 400 when
both prompt and image are falsy, otherwise assemble and call. -/
def generateRoute (prompt : List Char) (image : Option (List Char))
    (history : List Msg) (cgc : Option CodeSnips) : RouteResult :=
  if prompt.isEmpty && imageFalsy image then
    .badRequest ("Prompt or image is required.".data)
  else
    .callModel ⟨buildContents history cgc prompt image, systemInstructionMsg⟩

/-! ## Dashboard constants and turn state machine
(ACCIOJOB-FRONT dashboard page, `handleSendPrompt`). -/

/-- Frontend constant `NO_JSX_CODE` (dashboard page line 48). -/
def uiNoJsxCode : List Char := ("// No JSX generated for this prompt.".data)

/-- Frontend constant `NO_CSS_CODE` (dashboard page line 49). -/
def uiNoCssCode : List Char := ("/* No CSS generated for this prompt. */".data)

/-- Frontend constant `NO_HTML_CODE` (dashboard page line 50). -/
def uiNoHtmlCode : List Char := ("// No HTML generated for this prompt.".data)

/-- The dashboard's exact-match test deciding whether to offer the
Render button for a message's snippet (dashboard page lines 501-505):
some kind is non-empty and differs from its sentinel constant. -/
def uiOffersRender (c : CodeSnips) : Bool :=
  (!c.jsx.isEmpty && c.jsx != uiNoJsxCode)
  || (!c.css.isEmpty && c.css != uiNoCssCode)
  || (!c.html.isEmpty && c.html != uiNoHtmlCode)

/-- The placeholder text of the pending assistant turn
(`aiResponseThinking`, dashboard page lines 288-291). -/
def thinkingText : List Char := ("Thinking...".data)

/-- The placeholder assistant turn itself. -/
def thinkingMsg : Msg := ⟨("ai".data), thinkingText, none, none⟩

/-- The final assistant turn built from the response (`finalAiResponse`,
dashboard page lines 333-337). -/
def finalAiMsg (t : List Char) (c : CodeSnips) : Msg :=
  ⟨("ai".data), t, none, some c⟩

/-- Outcome of the generation fetch as seen by `handleSendPrompt`. -/
inductive GenOutcome where
  | ok (aiText : List Char) (code : CodeSnips)
  | fail (msg : List Char)

/-- In-memory session state: the chat history and the current generated
code (`selectedSession.chat_history` / `.generated_code`). -/
structure SessState where
  chat : List Msg
  generated : Option CodeSnips
deriving DecidableEq

/-- The state effect of `handleSendPrompt` (dashboard page lines
232-386): append the user turn, append the `Thinking...` placeholder;
on success overwrite the last turn with the final response and replace
the generated code wholesale; on failure the catch block only records
an error message and leaves the session state untouched. -/
def sendPromptStep (s : SessState) (userMsg : Msg) (outcome : GenOutcome) : SessState :=
  let h2 := s.chat ++ [userMsg, thinkingMsg]
  match outcome with
  | .ok t c => ⟨h2.set (h2.length - 1) (finalAiMsg t c), some c⟩
  | .fail _ => ⟨h2, s.generated⟩

/-! ## Session storage routes (sessionRoutes.js). -/

/-- Hexadecimal digit test for object-id validation. -/
def isHexDigit (c : Char) : Bool :=
  c.isDigit || ('a' ≤ c && c ≤ 'f') || ('A' ≤ c && c ≤ 'F')

/-- `mongoose.Types.ObjectId.isValid`, modelled at the external
library's documented interface: a 24-character hexadecimal string (or a
12-character string) is a syntactically valid object id. -/
def isValidObjectId (s : List Char) : Bool :=
  s.length == 12 || (s.length == 24 && s.all isHexDigit)

/-- One stored session document (models/session.js), keyed by `_id`
with an owning `userId`. -/
structure SessionDoc where
  sid : List Char
  owner : List Char
  chatHistory : List Msg
  generatedCode : CodeSnips
deriving DecidableEq

/-- Ownership-qualified lookup predicate `{ _id: sessionId, userId }`. -/
def docMatches (sid userId : List Char) (d : SessionDoc) : Bool :=
  d.sid == sid && d.owner == userId

/-- Result of GET /:id (sessionRoutes.js lines 52-86): 400 on a
malformed id, 404 when no owned session matches, else the document. -/
inductive LoadResult where
  | invalidFormat
  | notFound
  | ok (doc : SessionDoc)
deriving DecidableEq

/-- GET /:id — validate the id format, then `Session.findOne({_id,
userId})`; a missing or differently-owned session yields `notFound`. -/
def loadSession (db : List SessionDoc) (userId sid : List Char) : LoadResult :=
  if !isValidObjectId sid then .invalidFormat
  else
    match db.find? (docMatches sid userId) with
    | some d => .ok d
    | none => .notFound

/-- Result of PUT /:id/save (sessionRoutes.js lines 89-126). -/
inductive SaveResult where
  | invalidFormat
  | notFound
  | saved
deriving DecidableEq

/-- Replace the first document satisfying the predicate. -/
def updateFirst : List SessionDoc → (SessionDoc → Bool) → (SessionDoc → SessionDoc) → List SessionDoc
  | [], _, _ => []
  | d :: ds, p, f => if p d then f d :: ds else d :: updateFirst ds p f

/-- PUT /:id/save — validate the id format, then
`Session.findOneAndUpdate({_id, userId}, {...})`; updates the first
owned match or yields `notFound`, returning the (possibly updated)
store. -/
def saveSession (db : List SessionDoc) (userId sid : List Char)
    (newChat : List Msg) (newCode : CodeSnips) : SaveResult × List SessionDoc :=
  if !isValidObjectId sid then (.invalidFormat, db)
  else
    match db.find? (docMatches sid userId) with
    | some _ =>
      (.saved, updateFirst db (docMatches sid userId)
        (fun d => { d with chatHistory := newChat, generatedCode := newCode }))
    | none => (.notFound, db)

/-- JavaScript falsiness of the optional `currentGeneratedCode` payload
combined with the truthiness test of line 81: absent, or all kinds
empty. -/
def cgcFalsy : Option CodeSnips → Bool
  | none => true
  | some c => !snipAny c


/-- One serialized fenced block, newline-prefixed exactly as one
`codeText` component: `"\n" ++ fence ++ tag ++ "\n" ++ code ++ "\n" ++ fence`. -/
def blockText (b : List Char × List Char) : List Char :=
  '\n' :: (fenceMarker ++ b.1 ++ '\n' :: (b.2 ++ ('\n' :: fenceMarker)))

/-- Concatenation of serialized blocks. -/
def joinBlocks : List (List Char × List Char) → List Char
  | [] => []
  | b :: bs => blockText b ++ joinBlocks bs

/-- The blocks the serializer emits for a code triple, in order:
jsx, css, html, each only when non-empty. -/
def blocksOf (c : CodeSnips) : List (List Char × List Char) :=
  (if c.jsx.isEmpty then [] else [(("jsx".data), c.jsx)])
  ++ (if c.css.isEmpty then [] else [(("css".data), c.css)])
  ++ (if c.html.isEmpty then [] else [(("html".data), c.html)])

/-! ## Helper lemmas -/

theorem extractFuel_of_none (n : Nat) (s : List Char) (h : findFence s = none) :
    extractFuel n s = ([], s) := by
  cases n <;> simp [extractFuel, h]

theorem startsWith_fence_cons (c : Char) (s : List Char) (h : c ≠ btick) :
    startsWithL fenceMarker (c :: s) = false := by
  have hb : (btick == c) = false := by
    simp only [beq_eq_false_iff_ne]
    exact fun he => h he.symm
  simp [fenceMarker, startsWithL, hb]

theorem tryOpen_cons_ne (c : Char) (s : List Char) (h : c ≠ btick) :
    tryOpen (c :: s) = none := by
  simp [tryOpen, startsWith_fence_cons c s h]

theorem findFence_cons_ne (c : Char) (s : List Char) (h : c ≠ btick) :
    findFence (c :: s) = (findFence s).map (fun q => (c :: q.1, q.2)) := by
  simp [findFence, tryOpen_cons_ne c s h]

theorem findFence_append_ne (pre s : List Char) (h : ∀ c ∈ pre, c ≠ btick) :
    findFence (pre ++ s) = (findFence s).map (fun q => (pre ++ q.1, q.2)) := by
  induction pre with
  | nil => cases hf : findFence s <;> simp [hf]
  | cons c pre ih =>
    rw [List.cons_append, findFence_cons_ne c _ (h c (by simp)),
      ih (fun d hd => h d (by simp [hd]))]
    cases hf : findFence s <;> simp [hf]

theorem findFence_of_no_btick (s : List Char) (h : ∀ c ∈ s, c ≠ btick) :
    findFence s = none := by
  induction s with
  | nil => rfl
  | cons c cs ih =>
    rw [findFence_cons_ne c _ (h c (by simp)), ih (fun d hd => h d (by simp [hd]))]
    rfl

theorem splitOnClose_fence (b rest : List Char) (h : ∀ c ∈ b, c ≠ btick) :
    splitOnClose (b ++ fenceMarker ++ rest) = some (b, rest) := by
  induction b with
  | nil =>
    show splitOnClose (btick :: btick :: btick :: rest) = some ([], rest)
    simp [splitOnClose, fenceMarker, startsWithL]
  | cons c b ih =>
    have hc : c ≠ btick := h c (by simp)
    have : (c :: b) ++ fenceMarker ++ rest = c :: (b ++ fenceMarker ++ rest) := by simp
    rw [this, splitOnClose, startsWith_fence_cons c _ hc]
    rw [ih (fun d hd => h d (by simp [hd]))]
    rfl

theorem tryOpen_jsx (tail : List Char) :
    tryOpen (fenceMarker ++ ("jsx".data) ++ '\n' :: tail) = some (("jsx".data), tail) := by
  have hd : ("jsx".data) = ['j', 's', 'x'] := rfl
  simp [tryOpen, fenceMarker, startsWithL, fenceTags, hd, List.find?, List.drop]

theorem tryOpen_css (tail : List Char) :
    tryOpen (fenceMarker ++ ("css".data) ++ '\n' :: tail) = some (("css".data), tail) := by
  have hd : ("css".data) = ['c', 's', 's'] := rfl
  have e1 : ('j' == 'c') = false := rfl
  have e2 : ('t' == 'c') = false := rfl
  simp [tryOpen, fenceMarker, startsWithL, fenceTags, hd, List.find?, List.drop, e1, e2]

theorem tryOpen_html (tail : List Char) :
    tryOpen (fenceMarker ++ ("html".data) ++ '\n' :: tail) = some (("html".data), tail) := by
  have hd : ("html".data) = ['h', 't', 'm', 'l'] := rfl
  have e1 : ('j' == 'h') = false := rfl
  have e2 : ('t' == 'h') = false := rfl
  have e3 : ('c' == 'h') = false := rfl
  simp [tryOpen, fenceMarker, startsWithL, fenceTags, hd, List.find?, List.drop, e1, e2, e3]


theorem findFence_block (tag body rest : List Char)
    (ho : tryOpen (fenceMarker ++ tag ++ '\n' :: (body ++ ('\n' :: fenceMarker) ++ rest))
      = some (tag, body ++ ('\n' :: fenceMarker) ++ rest))
    (hb : ∀ c ∈ body, c ≠ btick) :
    findFence (fenceMarker ++ tag ++ '\n' :: (body ++ ('\n' :: fenceMarker) ++ rest))
      = some ([], tag, body ++ ['\n'], rest) := by
  have hsplit : splitOnClose (body ++ ('\n' :: fenceMarker) ++ rest) = some (body ++ ['\n'], rest) := by
    have hsh : body ++ ('\n' :: fenceMarker) ++ rest = (body ++ ['\n']) ++ fenceMarker ++ rest := by simp
    rw [hsh, splitOnClose_fence]
    intro c hc
    rcases List.mem_append.mp hc with h1 | h2
    · exact hb c h1
    · simp at h2
      rw [h2]
      decide
  have hcons : fenceMarker ++ tag ++ '\n' :: (body ++ ('\n' :: fenceMarker) ++ rest)
      = btick :: (btick :: btick :: (tag ++ '\n' :: (body ++ ('\n' :: fenceMarker) ++ rest))) := by
    simp [fenceMarker]
  rw [hcons, findFence, ← hcons]
  simp only [List.append_assoc, List.cons_append] at ho hsplit
  simp [ho, hsplit]


theorem tryOpen_tag (tag tail : List Char)
    (ht : tag = ("jsx".data) ∨ tag = ("css".data) ∨ tag = ("html".data)) :
    tryOpen (fenceMarker ++ tag ++ '\n' :: tail) = some (tag, tail) := by
  rcases ht with h | h | h <;> rw [h]
  · exact tryOpen_jsx tail
  · exact tryOpen_css tail
  · exact tryOpen_html tail

theorem findFence_blockText (b : List Char × List Char) (rest : List Char)
    (ht : b.1 = ("jsx".data) ∨ b.1 = ("css".data) ∨ b.1 = ("html".data))
    (hb : ∀ c ∈ b.2, c ≠ btick) :
    findFence (blockText b ++ rest) = some (['\n'], b.1, b.2 ++ ['\n'], rest) := by
  have hshape : blockText b ++ rest
      = '\n' :: (fenceMarker ++ b.1 ++ '\n' :: (b.2 ++ ('\n' :: fenceMarker) ++ rest)) := by
    simp [blockText]
  rw [hshape, findFence_cons_ne '\n' _ (by decide),
    findFence_block b.1 b.2 rest (tryOpen_tag b.1 _ ht) hb]
  rfl

theorem extractFuel_join (blocks : List (List Char × List Char)) (pre : List Char) (fuel : Nat)
    (hpre : ∀ c ∈ pre, c ≠ btick)
    (hblocks : ∀ b ∈ blocks,
      (b.1 = ("jsx".data) ∨ b.1 = ("css".data) ∨ b.1 = ("html".data)) ∧ ∀ c ∈ b.2, c ≠ btick)
    (hfuel : blocks.length ≤ fuel) :
    extractFuel fuel (pre ++ joinBlocks blocks) =
      (blocks.map (fun b => (b.1, b.2 ++ ['\n'])), pre ++ List.replicate blocks.length '\n') := by
  induction blocks generalizing pre fuel with
  | nil =>
    rw [show joinBlocks [] = [] from rfl, List.append_nil,
      extractFuel_of_none fuel pre (findFence_of_no_btick pre hpre)]
    simp
  | cons b bs ih =>
    cases fuel with
    | zero => simp at hfuel
    | succ f =>
      have hfe : findFence (pre ++ joinBlocks (b :: bs))
          = some (pre ++ ['\n'], b.1, b.2 ++ ['\n'], joinBlocks bs) := by
        rw [show joinBlocks (b :: bs) = blockText b ++ joinBlocks bs from rfl,
          findFence_append_ne pre _ hpre,
          findFence_blockText b (joinBlocks bs) (hblocks b (by simp)).1 (hblocks b (by simp)).2]
        rfl
      rw [extractFuel, hfe]
      have ihh := ih [] f (by simp) (fun x hx => hblocks x (by simp [hx])) (by simpa using Nat.le_of_succ_le_succ (by simpa using hfuel))
      rw [List.nil_append] at ihh
      simp [ihh, List.replicate_succ]


theorem codeTextOf_eq_join (c : CodeSnips) : codeTextOf c = joinBlocks (blocksOf c) := by
  cases hj : c.jsx.isEmpty <;> cases hc : c.css.isEmpty <;> cases hh : c.html.isEmpty <;>
    simp [codeTextOf, blocksOf, joinBlocks, blockText, hj, hc, hh]

theorem mem_blocksOf (c : CodeSnips) (b : List Char × List Char) (hb : b ∈ blocksOf c) :
    b = (("jsx".data), c.jsx) ∨ b = (("css".data), c.css) ∨ b = (("html".data), c.html) := by
  revert hb
  cases hj : c.jsx.isEmpty <;> cases hc : c.css.isEmpty <;> cases hh : c.html.isEmpty <;>
    simp [blocksOf, hj, hc, hh] <;> tauto

theorem blocksOf_ne_nil (c : CodeSnips) (h : snipAny c = true) : blocksOf c ≠ [] := by
  revert h
  cases hj : c.jsx.isEmpty <;> cases hc : c.css.isEmpty <;> cases hh : c.html.isEmpty <;>
    simp [blocksOf, snipAny, hj, hc, hh]

theorem joinBlocks_length (blocks : List (List Char × List Char)) :
    blocks.length ≤ (joinBlocks blocks).length := by
  induction blocks with
  | nil => simp [joinBlocks]
  | cons b bs ih =>
    rw [show joinBlocks (b :: bs) = blockText b ++ joinBlocks bs from rfl]
    simp only [List.length_append, List.length_cons, blockText]
    omega

theorem trimL_newline (s : List Char) : trimL (s ++ ['\n']) = trimL s := by
  simp [trimL, List.dropWhile, wsChar]


theorem isJs_jsx : isJsLang ['j', 's', 'x'] = true := rfl
theorem isJs_css : isJsLang ['c', 's', 's'] = false := rfl
theorem isJs_html : isJsLang ['h', 't', 'm', 'l'] = false := rfl
theorem isCss_jsx : isCssLang ['j', 's', 'x'] = false := rfl
theorem isCss_css : isCssLang ['c', 's', 's'] = true := rfl
theorem isCss_html : isCssLang ['h', 't', 'm', 'l'] = false := rfl
theorem isHtml_jsx : isHtmlLang ['j', 's', 'x'] = false := rfl
theorem isHtml_css : isHtmlLang ['c', 's', 's'] = false := rfl
theorem isHtml_html : isHtmlLang ['h', 't', 'm', 'l'] = true := rfl
theorem trimL_nil : trimL [] = [] := rfl

theorem trimL_cons_newline (d : Char) (ds : List Char) :
    trimL (d :: (ds ++ ['\n'])) = trimL (d :: ds) := by
  rw [← List.cons_append]
  exact trimL_newline _

/-- Claim C3 (amended): re-extracting an ArtifactSet from the Context
Assembler's synthetic assistant message reproduces each artifact trimmed
of surrounding whitespace — hence the original artifacts exactly when
they carry none — provided at least one kind is non-empty (otherwise no
message is built) and no artifact contains a backtick (fence bodies are
not escaped). -/
theorem C3_roundtrip_trimmed (j c h : List Char)
    (hj : ∀ ch ∈ j, ch ≠ btick) (hc : ∀ ch ∈ c, ch ≠ btick) (hh : ∀ ch ∈ h, ch ≠ btick)
    (hne : snipAny ⟨j, c, h⟩ = true) :
    (processResponse (serializeCurrentCode ⟨j, c, h⟩)).2 = ⟨trimL j, trimL c, trimL h⟩ := by
  have hblocks : ∀ b ∈ blocksOf ⟨j, c, h⟩,
      (b.1 = ("jsx".data) ∨ b.1 = ("css".data) ∨ b.1 = ("html".data)) ∧ ∀ ch ∈ b.2, ch ≠ btick := by
    intro b hb
    rcases mem_blocksOf _ b hb with rfl | rfl | rfl
    · exact ⟨Or.inl rfl, hj⟩
    · exact ⟨Or.inr (Or.inl rfl), hc⟩
    · exact ⟨Or.inr (Or.inr rfl), hh⟩
  have hserial : serializeCurrentCode ⟨j, c, h⟩
      = refineHeader ++ joinBlocks (blocksOf ⟨j, c, h⟩) := by
    rw [serializeCurrentCode, codeTextOf_eq_join]
  have hex : extractBlocks (serializeCurrentCode ⟨j, c, h⟩)
      = ((blocksOf ⟨j, c, h⟩).map (fun b => (b.1, b.2 ++ ['\n'])),
         refineHeader ++ List.replicate (blocksOf ⟨j, c, h⟩).length '\n') := by
    rw [extractBlocks, hserial]
    apply extractFuel_join _ _ _ (by decide) hblocks
    have h1 := joinBlocks_length (blocksOf ⟨j, c, h⟩)
    simp only [List.length_append]
    omega
  rcases j with _ | ⟨a, as⟩ <;> rcases c with _ | ⟨b, bs⟩ <;> rcases h with _ | ⟨d, ds⟩
  · simp [snipAny] at hne
  all_goals
    simp only [blocksOf, List.isEmpty_nil, List.isEmpty_cons, ite_true, ite_false,
      Bool.false_eq_true, if_false, if_true, List.nil_append, List.append_nil] at hex
  all_goals
    simp [processResponse, hex, List.find?, isJs_jsx, isJs_css, isJs_html, isCss_jsx,
      isCss_css, isCss_html, isHtml_jsx, isHtml_css, isHtml_html, trimL_newline, trimL_cons_newline, trimL_nil]

theorem set_append_two {α : Type} (l : List α) (a b x : α) :
    (l ++ [a, b]).set (l.length + 1) x = l ++ [a, x] := by
  induction l with
  | nil => rfl
  | cons c l ih => simp [List.set, ih]

theorem find?_eq_get_of_first {α : Type} (l : List α) (p : α → Bool) (i : Nat)
    (hi : i < l.length) (hp : p (l.get ⟨i, hi⟩) = true)
    (hmin : ∀ j (hj : j < l.length), j < i → p (l.get ⟨j, hj⟩) = false) :
    l.find? p = some (l.get ⟨i, hi⟩) := by
  induction l generalizing i with
  | nil => exact absurd hi (by simp)
  | cons a l ih =>
    cases i with
    | zero => exact List.find?_cons_of_pos _ hp
    | succ i =>
      have ha : p a = false := hmin 0 (by simp) (Nat.succ_pos i)
      rw [List.find?_cons_of_neg _ (by simp [ha])]
      exact ih i (Nat.lt_of_succ_lt_succ hi) hp
        (fun j hj hji => hmin (j + 1) (by simpa using Nat.succ_lt_succ hj) (Nat.succ_lt_succ hji))


/-- Claim C1 is false as stated: on a zero-fence response the markup
artifact is set to the empty string (aiRoutes.js line 146), which is not
byte-for-byte equal to the dashboard's `NO_HTML_CODE` constant. -/
theorem C1_counterexample :
    findFence (("hello").data) = none
    ∧ (processResponse (("hello").data)).2.html ≠ uiNoHtmlCode := by decide

/-- Claim C1 (amended): for every response with zero fenced regions the
extractor returns the full input as explanatory text, sets the component
and stylesheet artifacts to sentinels byte-for-byte equal to the UI's
`NO_JSX_CODE` / `NO_CSS_CODE` constants, but sets the markup artifact to
the empty string, which differs from the UI's `NO_HTML_CODE`; the UI
nevertheless offers no render action on this triple because it also
exact-matches the empty string. -/
theorem C1_zero_regions (text : List Char) (h : findFence text = none) :
    processResponse text = (text, ⟨jsxSentinel, cssSentinel, []⟩)
    ∧ jsxSentinel = uiNoJsxCode ∧ cssSentinel = uiNoCssCode
    ∧ ([] : List Char) ≠ uiNoHtmlCode
    ∧ uiOffersRender ⟨jsxSentinel, cssSentinel, []⟩ = false := by
  have hex : extractBlocks text = ([], text) := by
    rw [extractBlocks]
    exact extractFuel_of_none _ _ h
  refine ⟨?_, rfl, rfl, by decide, by decide⟩
  simp [processResponse, hex]

/-- Witness for C1 at the concrete fence-free response `hello`. -/
theorem C1_zero_regions_witness :
    findFence (("hello").data) = none
    ∧ processResponse (("hello").data) = ((("hello").data), ⟨jsxSentinel, cssSentinel, []⟩) :=
  ⟨by decide, (C1_zero_regions _ (by decide)).1⟩

/-- Claim C4 is false as stated: for an image payload that fails to
decode, the route does not reject the request — it still reaches the
external model call. -/
theorem C4_counterexample :
    decodeImagePart (("garbage").data) = none
    ∧ isCallModel (generateRoute (("hi").data) (some (("garbage").data)) [] none) = true := by
  exact ⟨rfl, rfl⟩

/-- Claim C4 (amended): when the image payload fails to decode (missing
media type or missing/empty base64 payload), the assembler does not
reject the request; it silently omits the image part and proceeds to the
external call with exactly the message list it would build with no image
at all (given a non-empty prompt, so the prompt-or-image guard passes). -/
theorem C4_image_silently_dropped (prompt img : List Char) (history : List Msg)
    (cgc : Option CodeSnips) (hd : decodeImagePart img = none) (hp : prompt.isEmpty = false) :
    generateRoute prompt (some img) history cgc
      = .callModel ⟨buildContents history cgc prompt none, systemInstructionMsg⟩ := by
  rw [generateRoute]
  simp only [hp, Bool.false_and, Bool.false_eq_true, if_false, ite_false]
  simp [buildContents, userContent, hd]

/-- Witness for C4 at the concrete undecodable payload `garbage`. -/
theorem C4_image_silently_dropped_witness :
    generateRoute (("hi").data) (some (("garbage").data)) [] none
      = .callModel ⟨buildContents [] none (("hi").data) none, systemInstructionMsg⟩ :=
  C4_image_silently_dropped _ _ _ _ rfl rfl

/-- Claim C6 evidence (code bug): after a failed generation call the
chat history still ends with the `Thinking...` placeholder turn — the
catch block of `handleSendPrompt` only records an error message and
never replaces or removes the placeholder. -/
theorem C6_thinking_left_on_failure :
    (sendPromptStep ⟨[], none⟩ ⟨("user".data), ("make a button".data), none, none⟩
        (.fail ("AI response failed.".data))).chat
      = [⟨("user".data), ("make a button".data), none, none⟩, thinkingMsg]
    ∧ thinkingMsg.content = thinkingText := ⟨rfl, rfl⟩

/-- Claim C7: on a successful generation response the placeholder turn
is replaced in place — the final assistant turn occupies the placeholder's
position, the turn count is unchanged by the replacement — and the
session's generated code becomes exactly the new response's artifacts,
wholesale. -/
theorem C7_replace_in_place (s : SessState) (u : Msg) (t : List Char) (c : CodeSnips) :
    (sendPromptStep s u (.ok t c)).chat = s.chat ++ [u, finalAiMsg t c]
    ∧ (sendPromptStep s u (.ok t c)).chat.length = (s.chat ++ [u, thinkingMsg]).length
    ∧ (sendPromptStep s u (.ok t c)).generated = some c := by
  have hset : (s.chat ++ [u, thinkingMsg]).set ((s.chat ++ [u, thinkingMsg]).length - 1)
      (finalAiMsg t c) = s.chat ++ [u, finalAiMsg t c] := by
    have hl : (s.chat ++ [u, thinkingMsg]).length - 1 = s.chat.length + 1 := by simp
    rw [hl, set_append_two]
  refine ⟨?_, ?_, rfl⟩
  · show (s.chat ++ [u, thinkingMsg]).set ((s.chat ++ [u, thinkingMsg]).length - 1)
        (finalAiMsg t c) = _
    rw [hset]
  · show ((s.chat ++ [u, thinkingMsg]).set ((s.chat ++ [u, thinkingMsg]).length - 1)
        (finalAiMsg t c)).length = _
    rw [hset]
    simp

/-- Claim C8 is false as stated: a request with non-empty text, no
image and no prior turn history, but carrying a non-empty
`currentGeneratedCode`, yields two messages (the synthetic model turn
plus the user turn), not exactly one. -/
theorem C8_counterexample :
    (contentsOf (generateRoute (("build a red button").data) none []
      (some ⟨("x".data), [], []⟩))).length = 2 := by decide

/-- Claim C8 (amended): for every request with non-empty user text, no
image, no prior turn history, and no (or all-empty) current generated
code, the assembler produces exactly one user message containing exactly
the user's text, and the fixed system instruction accompanies the call. -/
theorem C8_fresh_request_single_message (prompt : List Char) (cgc : Option CodeSnips)
    (hp : prompt.isEmpty = false) (hc : cgcFalsy cgc = true) :
    generateRoute prompt none [] cgc
      = .callModel ⟨[⟨("user".data), [Part.text prompt]⟩], systemInstructionMsg⟩ := by
  rw [generateRoute]
  simp only [hp, Bool.false_and, Bool.false_eq_true, if_false, ite_false]
  have hcc : currentCodeContents cgc = [] := by
    cases cgc with
    | none => rfl
    | some c =>
      have : snipAny c = false := by simpa [cgcFalsy] using hc
      simp [currentCodeContents, this]
  simp [buildContents, hcc, userContent]

/-- Witness for C8 at the concrete prompt `build a red button`. -/
theorem C8_fresh_request_witness :
    generateRoute (("build a red button").data) none [] none
      = .callModel ⟨[⟨("user".data), [Part.text (("build a red button").data)]⟩],
          systemInstructionMsg⟩ :=
  C8_fresh_request_single_message _ none rfl rfl

/-- Claim C10: for every syntactically invalid session id, both load
and save fail with the distinct invalid-format error (HTTP 400,
`Invalid session ID format`) regardless of the store contents — so
before any ownership lookup, and leaving the store unchanged — and this
outcome is distinguishable from `notFound` (404). -/
theorem C10_invalid_id_rejected (db : List SessionDoc) (uid sid : List Char)
    (nc : List Msg) (ncode : CodeSnips) (hv : isValidObjectId sid = false) :
    loadSession db uid sid = .invalidFormat
    ∧ saveSession db uid sid nc ncode = (.invalidFormat, db)
    ∧ LoadResult.invalidFormat ≠ LoadResult.notFound := by
  refine ⟨?_, ?_, by decide⟩ <;> simp [loadSession, saveSession, hv]

/-- Witness for C10 at the concrete malformed id `abc`. -/
theorem C10_invalid_id_witness :
    isValidObjectId (("abc").data) = false
    ∧ loadSession [] (("u").data) (("abc").data) = .invalidFormat
    ∧ saveSession [] (("u").data) (("abc").data) [] ⟨[], [], []⟩ = (.invalidFormat, []) := by
  have h := C10_invalid_id_rejected [] (("u").data) (("abc").data) [] ⟨[], [], []⟩ (by decide)
  exact ⟨by decide, h.1, h.2.1⟩

/-- Claim C9: for every owner and (well-formed) session id, load fails
with `notFound` exactly when no stored session has that id and that
owner, and save fails with `notFound` under the same condition — in
particular a session owned by a different account yields `notFound`,
never its data. -/
theorem C9_notfound_iff_not_owned (db : List SessionDoc) (uid sid : List Char)
    (nc : List Msg) (ncode : CodeSnips) (hv : isValidObjectId sid = true) :
    (loadSession db uid sid = .notFound ↔ ∀ d ∈ db, ¬ (d.sid = sid ∧ d.owner = uid))
    ∧ ((saveSession db uid sid nc ncode).1 = .notFound
        ↔ ∀ d ∈ db, ¬ (d.sid = sid ∧ d.owner = uid)) := by
  have hpred : ∀ d : SessionDoc, docMatches sid uid d = true ↔ (d.sid = sid ∧ d.owner = uid) := by
    intro d
    simp [docMatches]
  have key : (db.find? (docMatches sid uid) = none)
      ↔ (∀ d ∈ db, ¬ (d.sid = sid ∧ d.owner = uid)) := by
    rw [List.find?_eq_none]
    constructor
    · intro hall d hd hcon
      exact hall d hd ((hpred d).mpr hcon)
    · intro hall d hd hmatch
      exact hall d hd ((hpred d).mp hmatch)
  constructor
  · rw [← key]
    cases hf : db.find? (docMatches sid uid) <;> simp [loadSession, hv, hf]
  · rw [← key]
    cases hf : db.find? (docMatches sid uid) <;> simp [saveSession, hv, hf]

/-- Witness for C9: a stored session owned by `alice` queried by `bob`
yields `notFound` on both load and save. -/
theorem C9_notfound_witness :
    isValidObjectId (("0123456789abcdef01234567").data) = true
    ∧ loadSession [⟨(("0123456789abcdef01234567").data), (("alice").data), [], ⟨[], [], []⟩⟩]
        (("bob").data) (("0123456789abcdef01234567").data) = .notFound
    ∧ (saveSession [⟨(("0123456789abcdef01234567").data), (("alice").data), [], ⟨[], [], []⟩⟩]
        (("bob").data) (("0123456789abcdef01234567").data) [] ⟨[], [], []⟩).1 = .notFound := by
  have h := C9_notfound_iff_not_owned
    [⟨(("0123456789abcdef01234567").data), (("alice").data), [], ⟨[], [], []⟩⟩]
    (("bob").data) (("0123456789abcdef01234567").data) [] ⟨[], [], []⟩ (by decide)
  exact ⟨by decide, h.1.mpr (by decide), h.2.mpr (by decide)⟩


/-- Claim C5 (amended): when at least one region matched and the
residual text is empty, the explanatory text is the fixed
acknowledgement if at least one extracted artifact is non-empty and the
fixed no-code message otherwise (e.g. when the only matches are
tsx-tagged or trim to empty bodies) — in that case it is never empty;
when nothing matched, the explanatory text is the full input, which is
empty exactly when the input is empty. -/
theorem C5_residual_fallbacks (text : List Char) :
    ((¬ ((extractBlocks text).1.isEmpty = true)) →
      (trimL (extractBlocks text).2).isEmpty = true →
        ((processResponse text).1
            = (if snipAny (processResponse text).2 = true then ackText else noCodeText)
          ∧ (processResponse text).1 ≠ []))
    ∧ ((extractBlocks text).1.isEmpty = true → (processResponse text).1 = text) := by
  constructor
  · intro h1 h2
    have hm : ((extractBlocks text).1.map (fun p => (p.1, trimL p.2))).isEmpty = false := by
      rcases hbl : (extractBlocks text).1 with _ | ⟨p, ps⟩
      · exact absurd (by simp [hbl]) h1
      · simp [hbl]
    have heq : (processResponse text).1
        = (if snipAny (processResponse text).2 = true then ackText else noCodeText) := by
      simp [processResponse, hm, h2, snipAny]
    refine ⟨heq, ?_⟩
    rw [heq]
    split <;> decide
  · intro h1
    have hm0 : ((extractBlocks text).1.map (fun p => (p.1, trimL p.2))).isEmpty = true := by
      rcases hbl : (extractBlocks text).1 with _ | ⟨p, ps⟩
      · simp [hbl]
      · rw [hbl] at h1
        simp at h1
    simp [processResponse, hm0]


/-- Witness for C5 at a concrete tsx-only response with empty residual
(the no-code branch of the amended claim). -/
theorem C5_residual_witness :
    ((processResponse (("```tsx\nlet a = 1\n```").data)).1
        = (if snipAny (processResponse (("```tsx\nlet a = 1\n```").data)).2 = true
           then ackText else noCodeText)
      ∧ (processResponse (("```tsx\nlet a = 1\n```").data)).1 ≠ []) :=
  (C5_residual_fallbacks (("```tsx\nlet a = 1\n```").data)).1 (by decide) (by decide)

/-- Claim C2: whenever the scanned response contains a region of each
kind (component: tag containing `js`; stylesheet: tag `css`; markup: tag
`html`), each resulting artifact equals the trimmed body of the earliest
region matching that kind — later regions of the same kind are ignored,
never merged. -/
theorem C2_first_match_wins (text : List Char) (i j k : Nat)
    (hi : i < (extractBlocks text).1.length)
    (hj : j < (extractBlocks text).1.length)
    (hk : k < (extractBlocks text).1.length)
    (hpi : isJsLang ((extractBlocks text).1.get ⟨i, hi⟩).1 = true)
    (hmi : ∀ n (hn : n < (extractBlocks text).1.length), n < i →
      isJsLang ((extractBlocks text).1.get ⟨n, hn⟩).1 = false)
    (hpj : isCssLang ((extractBlocks text).1.get ⟨j, hj⟩).1 = true)
    (hmj : ∀ n (hn : n < (extractBlocks text).1.length), n < j →
      isCssLang ((extractBlocks text).1.get ⟨n, hn⟩).1 = false)
    (hpk : isHtmlLang ((extractBlocks text).1.get ⟨k, hk⟩).1 = true)
    (hmk : ∀ n (hn : n < (extractBlocks text).1.length), n < k →
      isHtmlLang ((extractBlocks text).1.get ⟨n, hn⟩).1 = false) :
    (processResponse text).2 =
      ⟨trimL ((extractBlocks text).1.get ⟨i, hi⟩).2,
       trimL ((extractBlocks text).1.get ⟨j, hj⟩).2,
       trimL ((extractBlocks text).1.get ⟨k, hk⟩).2⟩ := by
  have hlen : ((extractBlocks text).1.map (fun p => (p.1, trimL p.2))).length
      = (extractBlocks text).1.length := by simp
  have hm : ((extractBlocks text).1.map (fun p => (p.1, trimL p.2))).isEmpty = false := by
    rcases hbl : (extractBlocks text).1 with _ | ⟨p, ps⟩
    · rw [hbl] at hi
      simp at hi
    · simp [hbl]
  have hJ : ((extractBlocks text).1.map (fun p => (p.1, trimL p.2))).find?
      (fun p => isJsLang p.1) = some (((extractBlocks text).1.get ⟨i, hi⟩).1,
        trimL ((extractBlocks text).1.get ⟨i, hi⟩).2) := by
    rw [find?_eq_get_of_first _ _ i (hlen ▸ hi) (by simpa using hpi)
      (fun n hn hni => by simpa using hmi n (hlen ▸ hn) hni)]
    simp
  have hC : ((extractBlocks text).1.map (fun p => (p.1, trimL p.2))).find?
      (fun p => isCssLang p.1) = some (((extractBlocks text).1.get ⟨j, hj⟩).1,
        trimL ((extractBlocks text).1.get ⟨j, hj⟩).2) := by
    rw [find?_eq_get_of_first _ _ j (hlen ▸ hj) (by simpa using hpj)
      (fun n hn hnj => by simpa using hmj n (hlen ▸ hn) hnj)]
    simp
  have hH : ((extractBlocks text).1.map (fun p => (p.1, trimL p.2))).find?
      (fun p => isHtmlLang p.1) = some (((extractBlocks text).1.get ⟨k, hk⟩).1,
        trimL ((extractBlocks text).1.get ⟨k, hk⟩).2) := by
    rw [find?_eq_get_of_first _ _ k (hlen ▸ hk) (by simpa using hpk)
      (fun n hn hnk => by simpa using hmk n (hlen ▸ hn) hnk)]
    simp
  simp [processResponse, hm, hJ, hC, hH]


/-- Witness for C2 on a response with duplicate jsx and css regions:
the first of each kind wins. -/
theorem C2_first_match_witness :
    (processResponse
      (("A\n```jsx\none\n```\n```jsx\ntwo\n```\n```css\nc1\n```\n```css\nc2\n```\n```html\nh1\n```\nB").data)).2
      = ⟨("one".data), ("c1".data), ("h1".data)⟩ := by
  have h := C2_first_match_wins
    (("A\n```jsx\none\n```\n```jsx\ntwo\n```\n```css\nc1\n```\n```css\nc2\n```\n```html\nh1\n```\nB").data)
    0 2 4 (by decide) (by decide) (by decide) (by decide) (by decide) (by decide)
    (by decide) (by decide) (by decide)
  rw [h]
  decide

/-- Claim C3 is false as stated: an artifact with surrounding
whitespace does not survive the serialize-extract round trip, because
extraction trims each body. -/
theorem C3_counterexample :
    (processResponse (serializeCurrentCode ⟨((" a").data), [], []⟩)).2
      ≠ ⟨((" a").data), [], []⟩ := by decide

/-- Witness for C3 on a concrete trimmed, backtick-free triple: the
round trip reproduces it exactly. -/
theorem C3_roundtrip_witness :
    (processResponse (serializeCurrentCode
        ⟨(("const a = 1").data), (("h1 color: red;").data), (("<div>hi</div>").data)⟩)).2
      = ⟨(("const a = 1").data), (("h1 color: red;").data), (("<div>hi</div>").data)⟩ := by
  have h := C3_roundtrip_trimmed (("const a = 1").data) (("h1 color: red;").data) (("<div>hi</div>").data)
    (by decide) (by decide) (by decide) (by decide)
  rw [h]
  decide

/-- Claim C5 is false as stated: on the empty response nothing matches
and the residual is empty, yet the explanatory text is the empty string,
not the fixed no-code message. -/
theorem C5_counterexample :
    findFence [] = none ∧ (processResponse []).1 = [] ∧ noCodeText ≠ [] := by decide

end Accio
